import Mathlib

/-
Shallow embedding of the blog entry store of src/app.py: the BlogEntry
model (slug generation, save with index synchronization, full-text search)
and the EntryIndex FTS5 table it shadows.  Machine state is the pair of
tables plus the next SQLite rowid; fallible writes return Except.
-/

/-- Word characters as matched by the character class w of the slug regex:
letters, digits and underscore (ASCII model of Python re). -/
def isWordChar (c : Char) : Bool := c.isAlphanum || c == '_'

/-- Embeds re.sub with the pattern matching one-or-more non-word characters
and the replacement hyphen: leftmost-longest matching replaces each maximal
run of non-word characters with a single hyphen.  The Bool flag records
whether the previous character belonged to the current non-word run. -/
def subNonWord : Bool → List Char → List Char
  | _, [] => []
  | inRun, c :: cs =>
    if isWordChar c then c :: subNonWord false cs
    else if inRun then subNonWord true cs
    else '-' :: subNonWord true cs

/-- Python str.lower, character by character (ASCII model). -/
def lowerStr (s : String) : String :=
  String.mk (s.data.map Char.toLower)

/-- BlogEntry build_slug (app.py line 32): re.sub applied to the
lower-cased title. -/
def buildSlug (title : String) : String :=
  String.mk (subNonWord false (lowerStr title).data)

/-- BlogEntry record (app.py lines 24-29).  The id is assigned by the store
on insert; an empty slug and a none timestamp model the falsy unset values
the save method tests for (not self.slug, not self.timestamp). -/
structure Document where
  id : Nat
  title : String
  slug : String
  content : String
  published : Bool
  timestamp : Option Nat
deriving Repr, DecidableEq

/-- EntryIndex FTS5 row (app.py lines 76-83): rowid keys the row to its
BlogEntry, title and content hold the indexed terms. -/
structure IndexEntry where
  rowid : Nat
  title : String
  content : String
deriving Repr, DecidableEq

/-- Persistent state: the BlogEntry table, the EntryIndex table and the
next rowid SQLite will assign (rowids start at 1). -/
structure Store where
  docs : List Document
  index : List IndexEntry
  nextId : Nat
deriving Repr, DecidableEq

/-- The empty database created by create_tables (app.py line 195). -/
def initStore : Store := { docs := [], index := [], nextId := 1 }

/-- Typed outcomes of a failed write: the peewee IntegrityError on the
unique slug column, and a failed EntryIndex write after the BlogEntry row
was already committed. -/
inductive Err
  | DuplicateSlug
  | IndexSyncFailed
deriving Repr, DecidableEq

/-- Index rows whose rowid equals the given id. -/
def entriesFor (idx : List IndexEntry) (i : Nat) : List IndexEntry :=
  idx.filter (fun e => e.rowid == i)

/-- BlogEntry.update_search_index (app.py lines 34-43): look up the
EntryIndex row whose rowid is the entry id; create it when absent,
otherwise overwrite its title and content and save it. -/
def update_search_index (idx : List IndexEntry) (d : Document) : List IndexEntry :=
  if idx.any (fun e => e.rowid == d.id) then
    idx.map (fun e =>
      if e.rowid == d.id then { e with title := d.title, content := d.content } else e)
  else
    idx ++ [{ rowid := d.id, title := d.title, content := d.content }]

/-- Slug backfill in BlogEntry.save (app.py lines 46-47). -/
def fillSlug (d : Document) : Document :=
  if d.slug = "" then { d with slug := buildSlug d.title } else d

/-- Timestamp backfill in BlogEntry.save (app.py lines 48-49); now is the
clock value utcnow returns. -/
def fillTimestamp (d : Document) (now : Nat) : Document :=
  if d.timestamp = none then { d with timestamp := some now } else d

/-- The two backfill lines at the top of BlogEntry.save (app.py 46-49). -/
def backfill (d : Document) (now : Nat) : Document :=
  fillTimestamp (fillSlug d) now

/-- The fresh instance BlogEntry.create builds (app.py lines 150-154):
title, content and published from the form, slug and timestamp unset, id
the rowid the insert will assign. -/
def newDoc (st : Store) (title content : String) (published : Bool) : Document :=
  { id := st.nextId, title := title, slug := "", content := content,
    published := published, timestamp := none }

/-- The INSERT commit of a fresh row. -/
def commitNew (st : Store) (d : Document) : Store :=
  { st with docs := st.docs ++ [d], nextId := st.nextId + 1 }

/-- The UPDATE commit of an existing row, keyed by id. -/
def commitUpd (st : Store) (d : Document) : Store :=
  { st with docs := st.docs.map (fun e => if e.id == d.id then d else e) }

/-- The update_search_index call that follows the commit in save. -/
def withIndex (st : Store) (d : Document) : Store :=
  { st with index := update_search_index st.index d }

/-- BlogEntry.create (app.py lines 150-154), which runs BlogEntry.save
(lines 45-52) on a fresh instance: backfill slug and timestamp, INSERT the
row unless its slug collides with an existing one (unique slug column, no
index write happens on that failure), then run update_search_index.
syncOk injects whether that second, independently committed write
succeeds; when it fails the call reports the error while the inserted row
stays committed. -/
def create (st : Store) (title content : String) (published : Bool) (now : Nat)
    (syncOk : Bool) : Store × Except Err Document :=
  let d2 := backfill (newDoc st title content published) now
  if st.docs.any (fun e => e.slug == d2.slug) then
    (st, Except.error Err.DuplicateSlug)
  else if syncOk then
    (withIndex (commitNew st d2) d2, Except.ok d2)
  else
    (commitNew st d2, Except.error Err.IndexSyncFailed)

/-- BlogEntry.save on an instance that already carries its id (the UPDATE
path peewee takes for the edit route, app.py lines 45-52 and 165-182):
same backfills, DuplicateSlug when the slug collides with a different row,
otherwise the row is overwritten and update_search_index runs, with the
same syncOk injection as create. -/
def save (st : Store) (d : Document) (now : Nat) (syncOk : Bool) :
    Store × Except Err Document :=
  let d2 := backfill d now
  if st.docs.any (fun e => e.slug == d2.slug && !(e.id == d2.id)) then
    (st, Except.error Err.DuplicateSlug)
  else if syncOk then
    (withIndex (commitUpd st d2) d2, Except.ok d2)
  else
    (commitUpd st d2, Except.error Err.IndexSyncFailed)

/-- Maximal runs of non-separator characters, in order (the accumulator
holds the current run reversed).  With the whitespace separator this is
Python str.split with no argument: no empty words are produced. -/
def splitRuns (sep : Char → Bool) : List Char → List Char → List String
  | [], acc => if acc = [] then [] else [String.mk acc.reverse]
  | c :: cs, acc =>
    if sep c then
      if acc = [] then splitRuns sep cs []
      else String.mk acc.reverse :: splitRuns sep cs []
    else splitRuns sep cs (c :: acc)

/-- Python str.split with no argument. -/
def pySplit (s : String) : List String :=
  splitRuns (fun c => c.isWhitespace) s.data []

/-- Python str.strip with no argument: drop leading and trailing
whitespace. -/
def pyStrip (s : String) : String :=
  String.mk (((s.data.dropWhile Char.isWhitespace).reverse.dropWhile
    Char.isWhitespace).reverse)

/-- Query tokenization in BlogEntry.search (app.py line 60): split on
whitespace, strip each word, keep the non-empty ones. -/
def tokenize (q : String) : List String :=
  ((pySplit q).map pyStrip).filter (fun w => w != "")

/-- The space join of app.py line 64. -/
def joinSpace (ws : List String) : String :=
  String.mk (List.intercalate [' '] (ws.map String.data))

/-- Terms the FTS5 default tokenizer extracts from a text: maximal
alphanumeric runs, case-folded. -/
def ftsTerms (s : String) : List String :=
  splitRuns (fun c => !c.isAlphanum) (lowerStr s).data []

/-- An FTS5 MATCH of the space-joined query against an EntryIndex row:
every query term occurs among the terms of the title or content column
(implicit AND of terms). -/
def entryMatch (e : IndexEntry) (q : String) : Bool :=
  (ftsTerms q).all (fun t =>
    (ftsTerms e.title).contains t || (ftsTerms e.content).contains t)

/-- Modelled from the spec: the rank score of app.py line 66 is produced by
the index engine external to the repository; the spec requires only a
deterministic score of the indexed terms and the query, lower meaning more
relevant.  Modelled as the negated count of query-term occurrences. -/
def rank (e : IndexEntry) (q : String) : Int :=
  -(((ftsTerms e.title ++ ftsTerms e.content).filter
      (fun t => (ftsTerms q).contains t)).length : Int)

/-- Body of BlogEntry.search after tokenization (app.py lines 61-69): with
no tokens the query WHERE id == 0 runs; otherwise the tokens are rejoined
with single spaces, BlogEntry is joined to EntryIndex on id = rowid,
restricted to published rows matching the joined query, and ordered by the
rank score. -/
def searchTokens (st : Store) (words : List String) : List Document :=
  if words.isEmpty then
    st.docs.filter (fun d => d.id == 0)
  else
    let q := joinSpace words
    let rows := st.docs.filterMap (fun d =>
      match st.index.find? (fun e => e.rowid == d.id) with
      | some e => if d.published && entryMatch e q then some (d, rank e q) else none
      | none => none)
    (List.insertionSort (fun a b => a.2 ≤ b.2) rows).map (fun r => r.1)

/-- BlogEntry.search (app.py lines 58-69). -/
def search (st : Store) (q : String) : List Document :=
  searchTokens st (tokenize q)

/-- Wellformedness of a reachable store: ids are distinct, SQLite rowids
are at least 1 and below the next id, and index rowids are below the next
id. -/
def wfB (st : Store) : Bool :=
  decide ((st.docs.map (fun d => d.id)).Nodup)
  && st.docs.all (fun d => decide (1 ≤ d.id) && decide (d.id < st.nextId))
  && st.index.all (fun e => decide (e.rowid < st.nextId))

/-- The index invariant: each stored document has exactly one EntryIndex
row carrying its id, and that row holds its current title and content. -/
def storeSyncedB (st : Store) : Bool :=
  st.docs.all (fun d => decide (entriesFor st.index d.id =
    [{ rowid := d.id, title := d.title, content := d.content }]))

/-- Length bound for dropWhile, used for the run recursion below. -/
theorem dropWhile_len_le (p : Char → Bool) :
    ∀ l : List Char, (l.dropWhile p).length ≤ l.length
  | [] => Nat.le_refl _
  | c :: cs => by
    rw [List.dropWhile_cons]
    split
    · exact Nat.le_succ_of_le (dropWhile_len_le p cs)
    · exact Nat.le_refl _

/-- The slug contract as the spec words it: replace every maximal run of
non-word characters with a single hyphen, peeling one maximal run of word
or of non-word characters at a time. -/
def slugRuns : List Char → List Char
  | [] => []
  | c :: cs =>
    if isWordChar c then
      (c :: cs.takeWhile isWordChar) ++ slugRuns (cs.dropWhile isWordChar)
    else
      '-' :: slugRuns (cs.dropWhile (fun x => !isWordChar x))
termination_by l => l.length
decreasing_by
  · exact Nat.lt_succ_of_le (dropWhile_len_le _ cs)
  · exact Nat.lt_succ_of_le (dropWhile_len_le _ cs)

/-- The Slug Generator as worded by the spec: lower-case the title, then
replace each maximal non-word run with one hyphen. -/
def slugSpec (title : String) : String :=
  String.mk (slugRuns (lowerStr title).data)

/-- Inside a non-word run the substitution skips to the end of the run. -/
theorem subNonWord_true_eq (cs : List Char) :
    subNonWord true cs = subNonWord false (cs.dropWhile (fun x => !isWordChar x)) := by
  induction cs with
  | nil => rfl
  | cons c cs ih =>
    by_cases h : isWordChar c = true
    · simp [subNonWord, h, List.dropWhile_cons]
    · simp [subNonWord, h, List.dropWhile_cons, ih]

/-- Outside a run the substitution copies the leading word run verbatim. -/
theorem subNonWord_word_run (cs : List Char) :
    subNonWord false cs =
      cs.takeWhile isWordChar ++ subNonWord false (cs.dropWhile isWordChar) := by
  induction cs with
  | nil => rfl
  | cons c cs ih =>
    by_cases h : isWordChar c = true
    · simp only [List.takeWhile_cons, List.dropWhile_cons, h, if_true]
      simp [subNonWord, h]
      exact ih
    · simp only [List.takeWhile_cons, List.dropWhile_cons, h]
      simp

/-- The regex substitution agrees with the run-peeling description. -/
theorem subNonWord_eq_slugRuns (l : List Char) : subNonWord false l = slugRuns l := by
  match l with
  | [] => rw [slugRuns]; rfl
  | c :: cs =>
    by_cases h : isWordChar c = true
    · have h1 : subNonWord false (c :: cs) = c :: subNonWord false cs := by
        simp [subNonWord, h]
      rw [h1, subNonWord_word_run cs,
        subNonWord_eq_slugRuns (cs.dropWhile isWordChar)]
      rw [slugRuns]
      simp [h]
    · have h1 : subNonWord false (c :: cs) = '-' :: subNonWord true cs := by
        simp [subNonWord, h]
      rw [h1, subNonWord_true_eq cs,
        subNonWord_eq_slugRuns (cs.dropWhile (fun x => !isWordChar x))]
      rw [slugRuns]
      simp [h]
termination_by l.length
decreasing_by
  · exact Nat.lt_succ_of_le (dropWhile_len_le _ cs)
  · exact Nat.lt_succ_of_le (dropWhile_len_le _ cs)

/-- Backfill does not change the id. -/
theorem backfill_id (d : Document) (now : Nat) : (backfill d now).id = d.id := by
  simp only [backfill, fillSlug, fillTimestamp]
  split <;> split <;> rfl

/-- Backfill does not change the title. -/
theorem backfill_title (d : Document) (now : Nat) : (backfill d now).title = d.title := by
  simp only [backfill, fillSlug, fillTimestamp]
  split <;> split <;> rfl

/-- Backfill does not change the content. -/
theorem backfill_content (d : Document) (now : Nat) :
    (backfill d now).content = d.content := by
  simp only [backfill, fillSlug, fillTimestamp]
  split <;> split <;> rfl

/-- Backfill does not change the published flag. -/
theorem backfill_published (d : Document) (now : Nat) :
    (backfill d now).published = d.published := by
  simp only [backfill, fillSlug, fillTimestamp]
  split <;> split <;> rfl

/-- Backfill of an unset slug produces the generated slug. -/
theorem backfill_slug_of_empty (d : Document) (now : Nat) (h : d.slug = "") :
    (backfill d now).slug = buildSlug d.title := by
  simp only [backfill, fillSlug, fillTimestamp, h, if_pos]
  split <;> rfl

/-- Backfill keeps an already set timestamp. -/
theorem backfill_timestamp_of_set (d : Document) (now t : Nat)
    (h : d.timestamp = some t) : (backfill d now).timestamp = some t := by
  simp only [backfill, fillSlug, fillTimestamp]
  split <;> simp_all

/-- Unfolding of the synchronization invariant. -/
theorem synced_iff (st : Store) : storeSyncedB st = true ↔
    ∀ d ∈ st.docs, entriesFor st.index d.id =
      [{ rowid := d.id, title := d.title, content := d.content }] := by
  simp [storeSyncedB, List.all_eq_true]

/-- Unfolding of store wellformedness. -/
theorem wf_parts (st : Store) (h : wfB st = true) :
    (st.docs.map (fun d => d.id)).Nodup
    ∧ (∀ d ∈ st.docs, 1 ≤ d.id ∧ d.id < st.nextId)
    ∧ (∀ e ∈ st.index, e.rowid < st.nextId) := by
  simp only [wfB, Bool.and_eq_true, List.all_eq_true, decide_eq_true_eq] at h
  exact ⟨h.1.1, fun d hd => (h.1.2 d hd), h.2⟩

/-- After update_search_index the rows keyed by the entry id are exactly
the one row holding the current fields of the entry, provided there was at most
one such row before. -/
theorem entriesFor_update_self (idx : List IndexEntry) (d : Document)
    (h : (entriesFor idx d.id).length ≤ 1) :
    entriesFor (update_search_index idx d) d.id =
      [{ rowid := d.id, title := d.title, content := d.content }] := by
  unfold update_search_index
  by_cases hA : idx.any (fun e => e.rowid == d.id) = true
  · rw [if_pos hA]
    unfold entriesFor
    rw [List.filter_map]
    have hpf : ((fun e => e.rowid == d.id) ∘ fun e =>
        if e.rowid == d.id then { e with title := d.title, content := d.content } else e)
        = fun e : IndexEntry => e.rowid == d.id := by
      funext e
      by_cases he : e.rowid = d.id
      · simp [he]
      · simp [he]
    rw [hpf]
    obtain ⟨x, hx, hpx⟩ := List.any_eq_true.mp hA
    have hxmem : x ∈ List.filter (fun e : IndexEntry => e.rowid == d.id) idx :=
      List.mem_filter.mpr ⟨hx, hpx⟩
    have hlen1 : (List.filter (fun e : IndexEntry => e.rowid == d.id) idx).length = 1 := by
      have := List.length_pos_of_mem hxmem
      unfold entriesFor at h
      omega
    obtain ⟨a, ha⟩ := List.length_eq_one.mp hlen1
    rw [ha]
    have hamem : a ∈ List.filter (fun e : IndexEntry => e.rowid == d.id) idx := by
      rw [ha]; exact List.mem_singleton.mpr rfl
    have harow : a.rowid = d.id := by
      have := (List.mem_filter.mp hamem).2
      exact beq_iff_eq.mp this
    simp [harow]
  · rw [if_neg hA]
    unfold entriesFor
    rw [List.filter_append]
    have hnil : List.filter (fun e : IndexEntry => e.rowid == d.id) idx = [] := by
      rw [List.filter_eq_nil_iff]
      intro e he hpe
      exact hA (List.any_eq_true.mpr ⟨e, he, hpe⟩)
    rw [hnil]
    simp

/-- update_search_index leaves rows with any other rowid unchanged. -/
theorem entriesFor_update_other (idx : List IndexEntry) (d : Document) (i : Nat)
    (h : i ≠ d.id) :
    entriesFor (update_search_index idx d) i = entriesFor idx i := by
  unfold update_search_index
  by_cases hA : idx.any (fun e => e.rowid == d.id) = true
  · rw [if_pos hA]
    unfold entriesFor
    rw [List.filter_map]
    have hpf : ((fun e => e.rowid == i) ∘ fun e =>
        if e.rowid == d.id then { e with title := d.title, content := d.content } else e)
        = fun e : IndexEntry => e.rowid == i := by
      funext e
      by_cases he : e.rowid = d.id
      · simp [he]
      · simp [he]
    rw [hpf]
    have : ∀ a ∈ List.filter (fun e : IndexEntry => e.rowid == i) idx,
        (if a.rowid == d.id then { a with title := d.title, content := d.content } else a) = a := by
      intro a ha
      have hai : a.rowid = i := beq_iff_eq.mp (List.mem_filter.mp ha).2
      have : (a.rowid == d.id) = false := by
        rw [beq_eq_false_iff_ne, hai]
        exact h
      simp [this]
    calc List.map (fun e : IndexEntry =>
          if e.rowid == d.id then { e with title := d.title, content := d.content } else e)
            (List.filter (fun e : IndexEntry => e.rowid == i) idx)
        = List.map id (List.filter (fun e : IndexEntry => e.rowid == i) idx) :=
          List.map_congr_left (by intro a ha; simpa using this a ha)
      _ = List.filter (fun e : IndexEntry => e.rowid == i) idx := List.map_id _
  · rw [if_neg hA]
    unfold entriesFor
    rw [List.filter_append]
    have : List.filter (fun e : IndexEntry => e.rowid == i)
        [{ rowid := d.id, title := d.title, content := d.content }] = [] := by
      simp [Ne.symm h]
    rw [this]
    simp

/-- The index invariant is preserved by an insert followed by
update_search_index, when the inserted document takes the fresh id. -/
theorem synced_commitNew (st : Store) (d : Document)
    (hwf : wfB st = true) (hs : storeSyncedB st = true) (hid : d.id = st.nextId) :
    storeSyncedB (withIndex (commitNew st d) d) = true := by
  obtain ⟨_, hdoc, hidx⟩ := wf_parts st hwf
  rw [synced_iff]
  intro d' hd'
  simp only [withIndex, commitNew] at hd' ⊢
  rcases List.mem_append.mp hd' with hmem | hmem
  · have hne : d'.id ≠ d.id := by
      have := (hdoc d' hmem).2
      rw [hid]
      omega
    rw [entriesFor_update_other _ _ _ hne]
    exact (synced_iff st).mp hs d' hmem
  · have hdd : d' = d := by simpa using hmem
    subst hdd
    apply entriesFor_update_self
    have hnil : entriesFor st.index d'.id = [] := by
      rw [entriesFor, List.filter_eq_nil_iff]
      intro e he hpe
      have h1 := hidx e he
      have h2 : e.rowid = d'.id := beq_iff_eq.mp hpe
      rw [hid] at h2
      omega
    rw [hnil]
    simp

/-- The index invariant is preserved by an update followed by
update_search_index. -/
theorem synced_commitUpd (st : Store) (d : Document) (hs : storeSyncedB st = true) :
    storeSyncedB (withIndex (commitUpd st d) d) = true := by
  rw [synced_iff]
  intro d' hd'
  simp only [withIndex, commitUpd] at hd' ⊢
  rcases List.mem_map.mp hd' with ⟨e, he, heq⟩
  by_cases hcase : e.id = d.id
  · rw [if_pos (beq_iff_eq.mpr hcase)] at heq
    subst heq
    apply entriesFor_update_self
    have h1 := (synced_iff st).mp hs e he
    rw [hcase] at h1
    rw [h1]
    simp
  · rw [if_neg (by simpa using hcase)] at heq
    subst heq
    rw [entriesFor_update_other _ _ _ hcase]
    exact (synced_iff st).mp hs e he

/-- Unfolding of create into its three outcomes. -/
theorem create_eq (st : Store) (title content : String) (pub : Bool)
    (now : Nat) (ok : Bool) :
    create st title content pub now ok =
      (if st.docs.any (fun e =>
          e.slug == (backfill (newDoc st title content pub) now).slug) then
        (st, Except.error Err.DuplicateSlug)
      else if ok then
        (withIndex (commitNew st (backfill (newDoc st title content pub) now))
            (backfill (newDoc st title content pub) now),
          Except.ok (backfill (newDoc st title content pub) now))
      else
        (commitNew st (backfill (newDoc st title content pub) now),
          Except.error Err.IndexSyncFailed)) := rfl

/-- Unfolding of save into its three outcomes. -/
theorem save_eq (st : Store) (d : Document) (now : Nat) (ok : Bool) :
    save st d now ok =
      (if st.docs.any (fun e =>
          e.slug == (backfill d now).slug && !(e.id == (backfill d now).id)) then
        (st, Except.error Err.DuplicateSlug)
      else if ok then
        (withIndex (commitUpd st (backfill d now)) (backfill d now),
          Except.ok (backfill d now))
      else
        (commitUpd st (backfill d now), Except.error Err.IndexSyncFailed)) := rfl

/-- The store after the end-to-end create of the example document. -/
def storeA : Store :=
  (create initStore "Hello, World!" "first post about cats" true 0 true).1

/-- An edited version of the stored example document. -/
def docA2 : Document :=
  { id := 1, title := "Hello, World!", slug := "hello-world-",
    content := "second version about dogs", published := false, timestamp := some 0 }

/-- C1: for every Document ever successfully saved there exists exactly one
IndexEntry with its id whose title and content terms equal the state of
the Document as of its most recent successful save: the synchronization invariant
holds in the empty store and is preserved by every successful create and
save. -/
theorem claim1_index_sync_invariant (st : Store) (title content : String)
    (pub : Bool) (d : Document) (now : Nat)
    (hwf : wfB st = true) (hs : storeSyncedB st = true) :
    storeSyncedB initStore = true
    ∧ ((create st title content pub now true).2.isOk = true →
        storeSyncedB (create st title content pub now true).1 = true)
    ∧ ((save st d now true).2.isOk = true →
        storeSyncedB (save st d now true).1 = true) := by
  refine ⟨by decide, ?_, ?_⟩
  · intro hok
    rw [create_eq] at hok ⊢
    by_cases hdup : (st.docs.any (fun e =>
        e.slug == (backfill (newDoc st title content pub) now).slug)) = true
    · rw [if_pos hdup] at hok
      simp [Except.isOk, Except.toBool] at hok
    · rw [if_neg hdup, if_pos rfl]
      exact synced_commitNew st _ hwf hs (by rw [backfill_id]; rfl)
  · intro hok
    rw [save_eq] at hok ⊢
    by_cases hdup : (st.docs.any (fun e =>
        e.slug == (backfill d now).slug && !(e.id == (backfill d now).id))) = true
    · rw [if_pos hdup] at hok
      simp [Except.isOk, Except.toBool] at hok
    · rw [if_neg hdup, if_pos rfl]
      exact synced_commitUpd st _ hs

/-- Witness for C1 on the example store. -/
theorem claim1_witness :
    wfB storeA = true ∧ storeSyncedB storeA = true
    ∧ (storeSyncedB initStore = true
      ∧ ((create storeA "Second" "more" false 5 true).2.isOk = true →
          storeSyncedB (create storeA "Second" "more" false 5 true).1 = true)
      ∧ ((save storeA docA2 5 true).2.isOk = true →
          storeSyncedB (save storeA docA2 5 true).1 = true)) :=
  ⟨by decide, by decide,
    claim1_index_sync_invariant storeA "Second" "more" false docA2 5
      (by decide) (by decide)⟩

/-- C3: a create whose title normalizes to a slug already present fails
with DuplicateSlug and leaves the store, documents and index rows
included, unchanged. -/
theorem claim3_duplicate_create (st : Store) (title content : String)
    (pub : Bool) (now : Nat) (ok : Bool)
    (h : ∃ d0 ∈ st.docs, d0.slug = buildSlug title) :
    create st title content pub now ok = (st, Except.error Err.DuplicateSlug) := by
  rw [create_eq]
  have hslug : (backfill (newDoc st title content pub) now).slug = buildSlug title :=
    backfill_slug_of_empty _ _ rfl
  obtain ⟨d0, hd0, hs0⟩ := h
  have hany : st.docs.any (fun e =>
      e.slug == (backfill (newDoc st title content pub) now).slug) = true :=
    List.any_eq_true.mpr ⟨d0, hd0, by rw [hslug]; exact beq_iff_eq.mpr hs0⟩
  rw [if_pos hany]

/-- Witness for C3: a second title normalizing to the same slug as the
stored example document. -/
theorem claim3_witness :
    (∃ d0 ∈ storeA.docs, d0.slug = buildSlug "hello? world!")
    ∧ create storeA "hello? world!" "another cats post" true 7 true =
        (storeA, Except.error Err.DuplicateSlug) :=
  ⟨by decide,
    claim3_duplicate_create storeA "hello? world!" "another cats post" true 7 true
      (by decide)⟩

/-- C7: update_search_index is idempotent: running it twice with the same
document leaves the index exactly as one run does. -/
theorem claim7_sync_idempotent (idx : List IndexEntry) (d : Document) :
    update_search_index (update_search_index idx d) d = update_search_index idx d := by
  unfold update_search_index
  by_cases hA : idx.any (fun e => e.rowid == d.id) = true
  · rw [if_pos hA]
    have hpf : ((fun e : IndexEntry => e.rowid == d.id) ∘ fun e =>
        if e.rowid == d.id then { e with title := d.title, content := d.content } else e)
        = fun e : IndexEntry => e.rowid == d.id := by
      funext e
      by_cases he : e.rowid = d.id
      · simp [he]
      · simp [he]
    have hA2 : (idx.map (fun e =>
        if e.rowid == d.id then { e with title := d.title, content := d.content } else e)).any
          (fun e => e.rowid == d.id) = true := by
      rw [List.any_map, hpf]
      exact hA
    rw [if_pos hA2, List.map_map]
    apply List.map_congr_left
    intro a _
    by_cases he : a.rowid = d.id
    · simp [Function.comp, he]
    · simp [Function.comp, he]
  · rw [if_neg hA]
    have hA2 : ((idx ++ [({ rowid := d.id, title := d.title, content := d.content } : IndexEntry)]).any
        (fun e => e.rowid == d.id)) = true := by
      simp
    rw [if_pos hA2, List.map_append]
    have h1 : idx.map (fun e =>
        if e.rowid == d.id then { e with title := d.title, content := d.content } else e)
        = idx := by
      have hall : ∀ e ∈ idx, ¬((fun e : IndexEntry => e.rowid == d.id) e = true) := by
        intro e he hpe
        exact hA (List.any_eq_true.mpr ⟨e, he, hpe⟩)
      calc idx.map (fun e =>
            if e.rowid == d.id then { e with title := d.title, content := d.content } else e)
          = idx.map id := by
            apply List.map_congr_left
            intro a ha
            have : (a.rowid == d.id) = false :=
              Bool.eq_false_iff.mpr (fun hc => hall a ha hc)
            simp [this]
        _ = idx := List.map_id _
    rw [h1]
    simp

/-- Unfolding of the search body. -/
theorem searchTokens_eq (st : Store) (words : List String) :
    searchTokens st words =
      if words.isEmpty then st.docs.filter (fun d => d.id == 0)
      else
        (List.insertionSort (fun a b => a.2 ≤ b.2)
          (st.docs.filterMap (fun d =>
            match st.index.find? (fun e => e.rowid == d.id) with
            | some e => if d.published && entryMatch e (joinSpace words)
                then some (d, rank e (joinSpace words)) else none
            | none => none))).map (fun r => r.1) := rfl

/-- C2 fails on the code: the end-to-end create of Document with title
Hello, World! produces the slug hello-world- (with a trailing hyphen for
the trailing punctuation run), which differs from hello-world. -/
theorem claim2_counterexample :
    (create initStore "Hello, World!" "first post about cats" true 0 true).2 =
      Except.ok ({ id := 1, title := "Hello, World!", slug := "hello-world-",
                   content := "first post about cats", published := true,
                   timestamp := some 0 } : Document)
    ∧ ("hello-world-" : String) ≠ "hello-world" :=
  ⟨rfl, by decide⟩

/-- C2 amended: creating a Document with title Hello, World! and no
explicit slug produces the slug hello-world-, the Slug Generator's output
on that title. -/
theorem claim2_trailing_hyphen_slug :
    buildSlug "Hello, World!" = "hello-world-"
    ∧ (create initStore "Hello, World!" "first post about cats" true 0 true).2.map
        (fun r => r.slug) = Except.ok "hello-world-" :=
  ⟨rfl, rfl⟩

/-- C4: search only ever returns published documents, whatever the store
and the query. -/
theorem claim4_search_only_published (st : Store) (q : String)
    (hwf : wfB st = true) : ∀ d ∈ search st q, d.published = true := by
  intro d hd
  unfold search at hd
  rw [searchTokens_eq] at hd
  by_cases hw : (tokenize q).isEmpty = true
  · rw [if_pos hw] at hd
    obtain ⟨hmem, hid⟩ := List.mem_filter.mp hd
    obtain ⟨_, hdoc, _⟩ := wf_parts st hwf
    have h1 := (hdoc d hmem).1
    have h0 : d.id = 0 := by simpa using hid
    omega
  · rw [if_neg hw] at hd
    obtain ⟨p, hp, hpd⟩ := List.mem_map.mp hd
    rw [List.mem_insertionSort] at hp
    obtain ⟨a, ha, hfa⟩ := List.mem_filterMap.mp hp
    cases hfind : st.index.find? (fun e => e.rowid == a.id) with
    | none =>
      rw [hfind] at hfa
      exact absurd hfa (by simp)
    | some e =>
      rw [hfind] at hfa
      dsimp only at hfa
      by_cases hmatch : (a.published && entryMatch e (joinSpace (tokenize q))) = true
      · rw [if_pos hmatch] at hfa
        have hap := Option.some.inj hfa
        rw [← hpd, ← hap]
        have hpub := hmatch
        rw [Bool.and_eq_true] at hpub
        exact hpub.1
      · rw [if_neg hmatch] at hfa
        exact absurd hfa (by simp)

/-- Witness for C4 on a store holding a draft about dogs. -/
theorem claim4_witness :
    wfB (save storeA docA2 5 true).1 = true
    ∧ ∀ d ∈ search (save storeA docA2 5 true).1 "dogs", d.published = true :=
  ⟨by decide, claim4_search_only_published (save storeA docA2 5 true).1 "dogs" (by decide)⟩

/-- C5: a query that tokenizes to no tokens returns no results. -/
theorem claim5_empty_query (st : Store) (q : String) (hwf : wfB st = true)
    (hq : tokenize q = []) : search st q = [] := by
  obtain ⟨_, hdoc, _⟩ := wf_parts st hwf
  unfold search
  rw [hq, show searchTokens st [] = st.docs.filter (fun d => d.id == 0) from rfl,
    List.filter_eq_nil_iff]
  intro d hd hpd
  have h1 := (hdoc d hd).1
  have h0 : d.id = 0 := by simpa using hpd
  omega

/-- Witness for C5: the whitespace-only query on the example store. -/
theorem claim5_witness :
    wfB storeA = true ∧ tokenize "   " = [] ∧ search storeA "   " = [] :=
  ⟨by decide, by decide, claim5_empty_query storeA "   " (by decide) (by decide)⟩

/-- C6: the Slug Generator lower-cases the title and replaces each maximal
non-word run with one hyphen, and a document saved without an explicit
slug receives exactly that value. -/
theorem claim6_slug_generator (title : String) (st : Store) (content : String)
    (pub : Bool) (now : Nat) (d : Document) (hd : d.slug = "") :
    buildSlug title = slugSpec title
    ∧ (∀ st' r, create st title content pub now true = (st', Except.ok r) →
        r.slug = buildSlug title)
    ∧ (∀ st' r, save st d now true = (st', Except.ok r) → r.slug = buildSlug d.title) := by
  refine ⟨?_, ?_, ?_⟩
  · unfold buildSlug slugSpec
    rw [subNonWord_eq_slugRuns]
  · intro st' r h
    rw [create_eq] at h
    by_cases hdup : (st.docs.any (fun e =>
        e.slug == (backfill (newDoc st title content pub) now).slug)) = true
    · rw [if_pos hdup] at h
      have h2 := congrArg Prod.snd h
      simp at h2
    · rw [if_neg hdup, if_pos rfl] at h
      have h2 := congrArg Prod.snd h
      simp only [] at h2
      have h3 : backfill (newDoc st title content pub) now = r := by
        simpa using h2
      rw [← h3, backfill_slug_of_empty _ _ rfl]
      rfl
  · intro st' r h
    rw [save_eq] at h
    by_cases hdup : (st.docs.any (fun e =>
        e.slug == (backfill d now).slug && !(e.id == (backfill d now).id))) = true
    · rw [if_pos hdup] at h
      have h2 := congrArg Prod.snd h
      simp at h2
    · rw [if_neg hdup, if_pos rfl] at h
      have h2 := congrArg Prod.snd h
      have h3 : backfill d now = r := by
        simpa using h2
      rw [← h3, backfill_slug_of_empty _ _ hd]

/-- A copy of the stored example document with its slug cleared. -/
def docA3 : Document :=
  { id := 1, title := "Hello, World!", slug := "",
    content := "second version about dogs", published := false, timestamp := some 0 }

/-- Witness for C6 on a fresh title and the cleared-slug document. -/
theorem claim6_witness :
    docA3.slug = ""
    ∧ (buildSlug "Cats & Dogs" = slugSpec "Cats & Dogs"
      ∧ (∀ st' r, create storeA "Cats & Dogs" "pets" true 3 true = (st', Except.ok r) →
          r.slug = buildSlug "Cats & Dogs")
      ∧ (∀ st' r, save storeA docA3 3 true = (st', Except.ok r) →
          r.slug = buildSlug docA3.title)) :=
  ⟨by decide, claim6_slug_generator "Cats & Dogs" storeA "pets" true 3 docA3 (by decide)⟩

/-- C8: when the index write fails after the record commit, create and
save report IndexSyncFailed while the committed row stays in the store. -/
theorem claim8_sync_failure_reported (st : Store) (title content : String)
    (pub : Bool) (d : Document) (now : Nat)
    (h1 : st.docs.any (fun e =>
        e.slug == (backfill (newDoc st title content pub) now).slug) = false)
    (h2 : st.docs.any (fun e =>
        e.slug == (backfill d now).slug && !(e.id == (backfill d now).id)) = false) :
    ((create st title content pub now false).2 = Except.error Err.IndexSyncFailed
      ∧ backfill (newDoc st title content pub) now ∈
          (create st title content pub now false).1.docs)
    ∧ ((save st d now false).2 = Except.error Err.IndexSyncFailed
      ∧ ∀ e ∈ st.docs, e.id = (backfill d now).id →
          backfill d now ∈ (save st d now false).1.docs) := by
  constructor
  · rw [create_eq, if_neg (by simp [h1]), if_neg (by decide)]
    refine ⟨rfl, ?_⟩
    show backfill (newDoc st title content pub) now ∈
      (commitNew st (backfill (newDoc st title content pub) now)).docs
    simp [commitNew]
  · rw [save_eq, if_neg (by simp [h2]), if_neg (by decide)]
    refine ⟨rfl, ?_⟩
    intro e he hid
    show backfill d now ∈ (commitUpd st (backfill d now)).docs
    simp only [commitUpd]
    exact List.mem_map.mpr ⟨e, he, by rw [if_pos (beq_iff_eq.mpr hid)]⟩

/-- Witness for C8: a failing index write on the example store. -/
theorem claim8_witness :
    storeA.docs.any (fun e =>
        e.slug == (backfill (newDoc storeA "Fresh" "body" true) 9).slug) = false
    ∧ storeA.docs.any (fun e =>
        e.slug == (backfill docA2 9).slug && !(e.id == (backfill docA2 9).id)) = false
    ∧ (((create storeA "Fresh" "body" true 9 false).2 = Except.error Err.IndexSyncFailed
        ∧ backfill (newDoc storeA "Fresh" "body" true) 9 ∈
            (create storeA "Fresh" "body" true 9 false).1.docs)
      ∧ ((save storeA docA2 9 false).2 = Except.error Err.IndexSyncFailed
        ∧ ∀ e ∈ storeA.docs, e.id = (backfill docA2 9).id →
            backfill docA2 9 ∈ (save storeA docA2 9 false).1.docs)) :=
  ⟨by decide, by decide,
    claim8_sync_failure_reported storeA "Fresh" "body" true docA2 9
      (by decide) (by decide)⟩

/-- C9: a save of a document whose timestamp is already set keeps that
timestamp, both in the returned document and in every stored row the save
touched. -/
theorem claim9_timestamp_preserved (st : Store) (d : Document) (now t : Nat)
    (ok : Bool) (h : d.timestamp = some t) :
    (∀ r, (save st d now ok).2 = Except.ok r → r.timestamp = some t)
    ∧ (∀ e ∈ (save st d now ok).1.docs, e ∈ st.docs ∨ e.timestamp = some t) := by
  constructor
  · intro r hr
    rw [save_eq] at hr
    by_cases hdup : (st.docs.any (fun e =>
        e.slug == (backfill d now).slug && !(e.id == (backfill d now).id))) = true
    · rw [if_pos hdup] at hr
      simp at hr
    · rw [if_neg hdup] at hr
      by_cases hok : ok = true
      · rw [if_pos hok] at hr
        have h3 : backfill d now = r := by simpa using hr
        rw [← h3]
        exact backfill_timestamp_of_set d now t h
      · rw [if_neg hok] at hr
        simp at hr
  · intro e he
    rw [save_eq] at he
    by_cases hdup : (st.docs.any (fun e =>
        e.slug == (backfill d now).slug && !(e.id == (backfill d now).id))) = true
    · rw [if_pos hdup] at he
      exact Or.inl he
    · rw [if_neg hdup] at he
      have hmap : e ∈ st.docs.map (fun a =>
          if a.id == (backfill d now).id then backfill d now else a) := by
        by_cases hok : ok = true
        · rw [if_pos hok] at he
          exact he
        · rw [if_neg hok] at he
          exact he
      rcases List.mem_map.mp hmap with ⟨a, ha, hae⟩
      by_cases hc : a.id = (backfill d now).id
      · rw [if_pos (beq_iff_eq.mpr hc)] at hae
        right
        rw [← hae]
        exact backfill_timestamp_of_set d now t h
      · rw [if_neg (by simpa using hc)] at hae
        left
        rw [← hae]
        exact ha

/-- Witness for C9: editing the example document keeps its creation
timestamp. -/
theorem claim9_witness :
    docA2.timestamp = some 0
    ∧ ((∀ r, (save storeA docA2 5 true).2 = Except.ok r → r.timestamp = some 0)
      ∧ (∀ e ∈ (save storeA docA2 5 true).1.docs,
          e ∈ storeA.docs ∨ e.timestamp = some 0)) :=
  ⟨by decide, claim9_timestamp_preserved storeA docA2 5 0 true (by decide)⟩

/-- C10: search depends on its query only through the token list, so two
queries differing only in whitespace return identical result sequences. -/
theorem claim10_whitespace_invariance (st : Store) (q1 q2 : String)
    (h : tokenize q1 = tokenize q2) : search st q1 = search st q2 := by
  unfold search
  rw [h]

/-- Witness for C10: extra whitespace around the tokens of a query. -/
theorem claim10_witness :
    tokenize "cats  post " = tokenize " cats post"
    ∧ search storeA "cats  post " = search storeA " cats post" :=
  ⟨by decide, claim10_whitespace_invariance storeA "cats  post " " cats post" (by decide)⟩
